import Mathlib

/-
  Verification of the `solana-native-swaps` HTLC program
  (programs/solana-native-swaps/src/lib.rs).

  Shallow embedding. The on-chain ledger is modeled as a `Chain`: a store
  mapping derived addresses to swap records (together with the record
  account's lamport balance), a lamport balance for every other public key,
  and the current slot. Each of the four instructions (`initiate`, `redeem`,
  `refund`, `instant_refund`) is a function `Chain → Except TxError Chain`:
  the host ledger executes a transaction atomically, so a failing
  instruction yields an error and the pre-state persists, and a succeeding
  one yields the complete post-state.

  Abstractions, noted where they occur:
  * `find_program_address` (sha256 of the seeds plus program id) is
    injective on seeds in practice; the derived address is therefore
    modeled by the seed list itself, and the canonical bump by a fixed
    function of the seeds.
  * `hash::hash` (sha256) is an abstract parameter `digest`.
  * Lamport balances are `Nat`; `sub_lamports` keeps its explicit
    underflow check, while the overflow check of `add_lamports` is omitted
    (total lamport supply is far below 2^64, a host-ledger guarantee).
-/

namespace SolanaNativeSwaps

/-- A byte string (each entry intended to be `< 256`). -/
abbrev Bytes := List Nat

/-- A Solana public key, identified by its 32-byte representation
(what `Pubkey::as_ref` yields). -/
structure Pubkey where
  bytes : Bytes
deriving DecidableEq

/-- `u64::to_le_bytes`: fixed-width 8-byte little-endian encoding, used for
`swap_amount` and `timelock` in the PDA seeds. -/
def u64ToLeBytes (n : Nat) : Bytes :=
  (List.range 8).map (fun i => n / 256 ^ i % 256)

/-- The `u64` modulus; slot arithmetic (`checked_add`) overflows at this bound. -/
def U64MOD : Nat := 2 ^ 64

/-- A derived record address. `find_program_address` hashes the seed list
(with the program id and bump); that hash is injective on the seeds, so the
address is modeled by the seed list itself. -/
abbrev Addr := List Bytes

/-- The canonical bump of a PDA derivation. Its concrete value is part of
the abstracted sha256 search; only the facts that it is a function of the
seeds and that the stored `bump` matches it are relevant. -/
def canonicalBump (_ : Addr) : Nat := 0

/-- The seeds of `swap_account` as written in the `Initiate` accounts
struct: `[redeemer.as_ref(), refundee.as_ref(), &secret_hash,
&swap_amount.to_le_bytes(), &timelock.to_le_bytes()]`. -/
def swapSeeds (redeemer refundee : Pubkey) (secret_hash : Bytes)
    (swap_amount timelock : Nat) : Addr :=
  [redeemer.bytes, refundee.bytes, secret_hash,
   u64ToLeBytes swap_amount, u64ToLeBytes timelock]

/-- On-chain state of the atomic swap (`struct SwapAccount` of lib.rs). -/
structure SwapAccount where
  /-- The exact slot after which (non-instant) refunds are allowed. -/
  expiry_slot : Nat
  /-- The bump used by the program to derive this PDA. -/
  bump : Nat
  /-- The redeemer of the atomic swap. -/
  redeemer : Pubkey
  /-- The entity eligible to receive a refund. -/
  refundee : Pubkey
  /-- The secret hash associated with the atomic swap. -/
  secret_hash : Bytes
  /-- Lamports transferred through this atomic swap. -/
  swap_amount : Nat
  /-- The entity that paid the rent fees for the creation of this PDA. -/
  rent_sponsor : Pubkey
  /-- The number of slots after which (non-instant) refunds are allowed. -/
  timelock : Nat
deriving DecidableEq

/-- The ledger state visible to the program: for each derived address either
nothing or a swap record with the lamports held by that record account;
lamport balances of every plain public key; and the current slot
(`Clock::get().slot`). -/
structure Chain where
  store : Addr → Option (SwapAccount × Nat)
  balances : Pubkey → Nat
  slot : Nat

/-- The program's error codes (`enum SwapError` of lib.rs). -/
inductive SwapError
  | InvalidRefundee
  | InvalidRedeemer
  | InvalidSecret
  | InvalidRentSponsor
  | RefundBeforeExpiry
deriving DecidableEq

/-- How a transaction invoking one instruction can fail: a program error
code, or a failure raised by the Anchor account-validation preamble or the
host runtime (every one aborts the whole transaction). -/
inductive TxError
  | swap : SwapError → TxError
  /-- the targeted swap account does not exist (Anchor account
  deserialization fails; the not-found outcome of a completion race). -/
  | accountNotFound
  /-- Anchor `init` found the derived address already occupied. -/
  | accountAlreadyExists
  /-- the supplied account does not satisfy the `seeds`/`bump` constraint. -/
  | constraintSeeds
  /-- an account marked `Signer` did not sign the transaction. -/
  | missingSignature
  /-- `system_program::transfer` with insufficient lamports. -/
  | insufficientFunds
  /-- `sub_lamports` underflow. -/
  | arithmeticOverflow
  /-- the `expect` panic when `Clock.slot.checked_add(timelock)` overflows. -/
  | overflowPanic
deriving DecidableEq

/-- Add `n` lamports to `p`'s balance (`add_lamports` / transfer credit). -/
def credit (b : Pubkey → Nat) (p : Pubkey) (n : Nat) : Pubkey → Nat :=
  fun q => if q = p then b p + n else b q

/-- Remove `n` lamports from `p`'s balance (callers check sufficiency). -/
def debit (b : Pubkey → Nat) (p : Pubkey) (n : Nat) : Pubkey → Nat :=
  fun q => if q = p then b p - n else b q

/-- The `initiate` instruction. Anchor validates the accounts first:
`funder` and `rent_sponsor` must both sign, and `init` requires the PDA at
the derived seeds to be unoccupied, debiting the rent-exemption deposit
from the payer `rent_sponsor`. The body then transfers `swap_amount` from
the funder into the swap account, computes
`expiry_slot = Clock::get().slot.checked_add(timelock).expect(..)` (the
panic aborts the transaction), and persists the record. `rent` is the
rent-exemption deposit for the account's fixed size. -/
def initiateOp (c : Chain) (signers : List Pubkey)
    (funder rent_sponsor redeemer refundee : Pubkey) (secret_hash : Bytes)
    (swap_amount timelock rent : Nat) : Except TxError Chain :=
  let addr := swapSeeds redeemer refundee secret_hash swap_amount timelock
  if ¬ (funder ∈ signers ∧ rent_sponsor ∈ signers) then .error .missingSignature
  else if (c.store addr).isSome then .error .accountAlreadyExists
  else if c.balances rent_sponsor < rent then .error .insufficientFunds
  else
    let bal1 := debit c.balances rent_sponsor rent
    if bal1 funder < swap_amount then .error .insufficientFunds
    else if U64MOD ≤ c.slot + timelock then .error .overflowPanic
    else
      let bal2 := debit bal1 funder swap_amount
      let acct : SwapAccount :=
        { expiry_slot := c.slot + timelock
          bump := canonicalBump addr
          redeemer := redeemer
          refundee := refundee
          secret_hash := secret_hash
          swap_amount := swap_amount
          rent_sponsor := rent_sponsor
          timelock := timelock }
      .ok { store := fun a => if a = addr then some (acct, rent + swap_amount) else c.store a
            balances := bal2
            slot := c.slot }

/-- The `redeem` instruction. Anchor validation: the swap account must
exist at `addr`, satisfy the seeds constraint re-derived from its own
stored fields with the stored bump, and the supplied `redeemer` and
`rent_sponsor` must equal the stored ones (`InvalidRedeemer` /
`InvalidRentSponsor`). The body requires `hash(secret) == secret_hash`
(`InvalidSecret`), moves `swap_amount` from the swap account to the
redeemer, and `close = rent_sponsor` sends the remaining lamports (the
rent deposit) to the rent sponsor and deletes the record. No account here
is a `Signer`, so `signers` is never consulted. -/
def redeemOp (c : Chain) (signers : List Pubkey) (addr : Addr)
    (redeemer rent_sponsor : Pubkey) (secret : Bytes)
    (digest : Bytes → Bytes) : Except TxError Chain :=
  match c.store addr with
  | none => .error .accountNotFound
  | some (a, lams) =>
    if ¬ (addr = swapSeeds a.redeemer a.refundee a.secret_hash a.swap_amount a.timelock
          ∧ a.bump = canonicalBump addr) then .error .constraintSeeds
    else if redeemer ≠ a.redeemer then .error (.swap .InvalidRedeemer)
    else if rent_sponsor ≠ a.rent_sponsor then .error (.swap .InvalidRentSponsor)
    else if digest secret ≠ a.secret_hash then .error (.swap .InvalidSecret)
    else if lams < a.swap_amount then .error .arithmeticOverflow
    else
      let bal1 := credit c.balances a.redeemer a.swap_amount
      .ok { store := fun x => if x = addr then none else c.store x
            balances := credit bal1 a.rent_sponsor (lams - a.swap_amount)
            slot := c.slot }

/-- The `refund` instruction. Anchor validation: swap account exists,
seeds constraint from stored fields, supplied `refundee` and
`rent_sponsor` equal the stored ones. The body reads the current slot
fresh from the clock and requires `current_slot > expiry_slot`
(`RefundBeforeExpiry`), then moves `swap_amount` to the refundee and
closes the account to the rent sponsor. No `Signer` accounts. -/
def refundOp (c : Chain) (signers : List Pubkey) (addr : Addr)
    (refundee rent_sponsor : Pubkey) : Except TxError Chain :=
  match c.store addr with
  | none => .error .accountNotFound
  | some (a, lams) =>
    if ¬ (addr = swapSeeds a.redeemer a.refundee a.secret_hash a.swap_amount a.timelock
          ∧ a.bump = canonicalBump addr) then .error .constraintSeeds
    else if refundee ≠ a.refundee then .error (.swap .InvalidRefundee)
    else if rent_sponsor ≠ a.rent_sponsor then .error (.swap .InvalidRentSponsor)
    else if ¬ (c.slot > a.expiry_slot) then .error (.swap .RefundBeforeExpiry)
    else if lams < a.swap_amount then .error .arithmeticOverflow
    else
      let bal1 := credit c.balances a.refundee a.swap_amount
      .ok { store := fun x => if x = addr then none else c.store x
            balances := credit bal1 a.rent_sponsor (lams - a.swap_amount)
            slot := c.slot }

/-- The `instant_refund` instruction. Anchor validation: swap account
exists, seeds constraint, supplied `refundee` equals stored, supplied
`redeemer` equals stored and — being declared `Signer` — must have signed
the transaction, supplied `rent_sponsor` equals stored. The body performs
no clock comparison at all: it moves `swap_amount` to the refundee and
closes the account to the rent sponsor. -/
def instantRefundOp (c : Chain) (signers : List Pubkey) (addr : Addr)
    (refundee redeemer rent_sponsor : Pubkey) : Except TxError Chain :=
  match c.store addr with
  | none => .error .accountNotFound
  | some (a, lams) =>
    if ¬ (addr = swapSeeds a.redeemer a.refundee a.secret_hash a.swap_amount a.timelock
          ∧ a.bump = canonicalBump addr) then .error .constraintSeeds
    else if refundee ≠ a.refundee then .error (.swap .InvalidRefundee)
    else if redeemer ≠ a.redeemer then .error (.swap .InvalidRedeemer)
    else if redeemer ∉ signers then .error .missingSignature
    else if rent_sponsor ≠ a.rent_sponsor then .error (.swap .InvalidRentSponsor)
    else if lams < a.swap_amount then .error .arithmeticOverflow
    else
      let bal1 := credit c.balances a.refundee a.swap_amount
      .ok { store := fun x => if x = addr then none else c.store x
            balances := credit bal1 a.rent_sponsor (lams - a.swap_amount)
            slot := c.slot }

/-- The ledger applies a transaction atomically: a successful instruction
installs the post-state, a failed one leaves the chain exactly as it was. -/
def applyTx (r : Except TxError Chain) (c : Chain) : Chain :=
  match r with
  | .ok c' => c'
  | .error _ => c

/-- One step of the ledger as seen by this program: a successful invocation
of one of the four instructions with arbitrary arguments, or the clock
advancing. `digest` is the abstract sha256 and `rent` the rent-exemption
deposit, both fixed for the whole history. -/
inductive Step (digest : Bytes → Bytes) (rent : Nat) : Chain → Chain → Prop
  | tick (c : Chain) (s : Nat) :
      c.slot ≤ s → Step digest rent c { c with slot := s }
  | doInitiate (c c' : Chain) (signers : List Pubkey)
      (funder rent_sponsor redeemer refundee : Pubkey) (secret_hash : Bytes)
      (swap_amount timelock : Nat) :
      initiateOp c signers funder rent_sponsor redeemer refundee secret_hash
        swap_amount timelock rent = .ok c' → Step digest rent c c'
  | doRedeem (c c' : Chain) (signers : List Pubkey) (addr : Addr)
      (redeemer rent_sponsor : Pubkey) (secret : Bytes) :
      redeemOp c signers addr redeemer rent_sponsor secret digest = .ok c' →
      Step digest rent c c'
  | doRefund (c c' : Chain) (signers : List Pubkey) (addr : Addr)
      (refundee rent_sponsor : Pubkey) :
      refundOp c signers addr refundee rent_sponsor = .ok c' →
      Step digest rent c c'
  | doInstantRefund (c c' : Chain) (signers : List Pubkey) (addr : Addr)
      (refundee redeemer rent_sponsor : Pubkey) :
      instantRefundOp c signers addr refundee redeemer rent_sponsor = .ok c' →
      Step digest rent c c'

/-- A chain is reachable when it arises from some chain with an empty
record store (no swap existed yet; balances and slot arbitrary) by a
finite sequence of steps. -/
def Reachable (digest : Bytes → Bytes) (rent : Nat) (c : Chain) : Prop :=
  ∃ c₀ : Chain, (∀ a, c₀.store a = none) ∧
    Relation.ReflTransGen (Step digest rent) c₀ c

/-- The store invariant: every existing record sits at the address derived
from its own five identifying fields with the canonical bump, and holds
exactly the rent deposit plus its `swap_amount` in lamports. -/
def StoreInv (rent : Nat) (c : Chain) : Prop :=
  ∀ addr a lams, c.store addr = some (a, lams) →
    lams = rent + a.swap_amount ∧
    addr = swapSeeds a.redeemer a.refundee a.secret_hash a.swap_amount a.timelock ∧
    a.bump = canonicalBump addr

/-- Each step preserves the store invariant: `initiate` installs a record
at the seeds derived from its parameters holding `rent + swap_amount`
lamports, and the three closing instructions only ever delete a record. -/
theorem step_preserves_storeInv {digest : Bytes → Bytes} {rent : Nat}
    {c c' : Chain} (hs : Step digest rent c c') (hinv : StoreInv rent c) :
    StoreInv rent c' := by
  cases hs with
  | tick s hle =>
      intro x xa xl hx
      exact hinv x xa xl hx
  | doInitiate cc signers funder rent_sponsor redeemer refundee secret_hash swap_amount timelock h =>
      intro x xa xl hx
      unfold initiateOp at h
      dsimp only at h
      repeat' split at h
      all_goals try exact Except.noConfusion h
      simp only [Except.ok.injEq] at h
      subst h
      simp only at hx
      by_cases hx0 : x = swapSeeds redeemer refundee secret_hash swap_amount timelock
      · rw [if_pos hx0] at hx
        simp only [Option.some.injEq, Prod.mk.injEq] at hx
        obtain ⟨ha, hl⟩ := hx
        subst ha
        exact ⟨hl.symm, hx0, rfl⟩
      · rw [if_neg hx0] at hx
        exact hinv x xa xl hx
  | doRedeem cc signers addr redeemer rent_sponsor secret h =>
      intro x xa xl hx
      unfold redeemOp at h
      dsimp only at h
      repeat' split at h
      all_goals try exact Except.noConfusion h
      simp only [Except.ok.injEq] at h
      subst h
      simp only at hx
      by_cases hx0 : x = addr
      · rw [if_pos hx0] at hx
        exact absurd hx (by simp)
      · rw [if_neg hx0] at hx
        exact hinv x xa xl hx
  | doRefund cc signers addr refundee rent_sponsor h =>
      intro x xa xl hx
      unfold refundOp at h
      dsimp only at h
      repeat' split at h
      all_goals try exact Except.noConfusion h
      simp only [Except.ok.injEq] at h
      subst h
      simp only at hx
      by_cases hx0 : x = addr
      · rw [if_pos hx0] at hx
        exact absurd hx (by simp)
      · rw [if_neg hx0] at hx
        exact hinv x xa xl hx
  | doInstantRefund cc signers addr refundee redeemer rent_sponsor h =>
      intro x xa xl hx
      unfold instantRefundOp at h
      dsimp only at h
      repeat' split at h
      all_goals try exact Except.noConfusion h
      simp only [Except.ok.injEq] at h
      subst h
      simp only at hx
      by_cases hx0 : x = addr
      · rw [if_pos hx0] at hx
        exact absurd hx (by simp)
      · rw [if_neg hx0] at hx
        exact hinv x xa xl hx

/-- Every reachable chain satisfies the store invariant. -/
theorem reachable_storeInv {digest : Bytes → Bytes} {rent : Nat}
    {c : Chain} (h : Reachable digest rent c) : StoreInv rent c := by
  obtain ⟨c₀, h₀, hsteps⟩ := h
  induction hsteps with
  | refl =>
      intro x xa xl hx
      rw [h₀ x] at hx
      exact absurd hx (by simp)
  | tail hst hstep ih =>
      exact step_preserves_storeInv hstep ih

/-- `credit` never lowers any balance. -/
theorem le_credit (b : Pubkey → Nat) (p : Pubkey) (n : Nat) (q : Pubkey) :
    b q ≤ credit b p n q := by
  unfold credit
  split
  · rename_i hq
    rw [hq]
    exact Nat.le_add_right _ _
  · exact Nat.le_refl _

/-- No step mutates an existing record in place: if a record exists at the
same address before and after a step, it is the same record with the same
lamports (`initiate` refuses occupied addresses; the closing instructions
only delete). -/
theorem step_preserves_record {digest : Bytes → Bytes} {rent : Nat}
    {c c' : Chain} (hs : Step digest rent c c') {addr : Addr}
    {a : SwapAccount} {lams : Nat} (hc : c.store addr = some (a, lams))
    {a' : SwapAccount} {lams' : Nat} (hc' : c'.store addr = some (a', lams')) :
    a' = a ∧ lams' = lams := by
  cases hs with
  | tick s hle =>
      rw [show ({ c with slot := s } : Chain).store = c.store from rfl, hc] at hc'
      simp only [Option.some.injEq, Prod.mk.injEq] at hc'
      exact ⟨hc'.1.symm, hc'.2.symm⟩
  | doInitiate cc signers funder rent_sponsor redeemer refundee secret_hash swap_amount timelock h =>
      unfold initiateOp at h
      dsimp only at h
      repeat' split at h
      all_goals try exact Except.noConfusion h
      rename_i hsig hfree hrent hfund hovf
      simp only [Except.ok.injEq] at h
      subst h
      simp only at hc'
      by_cases hx0 : addr = swapSeeds redeemer refundee secret_hash swap_amount timelock
      · rw [hx0] at hc
        rw [hc] at hfree
        simp at hfree
      · rw [if_neg hx0] at hc'
        rw [hc] at hc'
        simp only [Option.some.injEq, Prod.mk.injEq] at hc'
        exact ⟨hc'.1.symm, hc'.2.symm⟩
  | doRedeem cc signers addr₁ redeemer rent_sponsor secret h =>
      unfold redeemOp at h
      dsimp only at h
      repeat' split at h
      all_goals try exact Except.noConfusion h
      simp only [Except.ok.injEq] at h
      subst h
      simp only at hc'
      by_cases hx0 : addr = addr₁
      · rw [if_pos hx0] at hc'
        exact absurd hc' (by simp)
      · rw [if_neg hx0] at hc'
        rw [hc] at hc'
        simp only [Option.some.injEq, Prod.mk.injEq] at hc'
        exact ⟨hc'.1.symm, hc'.2.symm⟩
  | doRefund cc signers addr₁ refundee rent_sponsor h =>
      unfold refundOp at h
      dsimp only at h
      repeat' split at h
      all_goals try exact Except.noConfusion h
      simp only [Except.ok.injEq] at h
      subst h
      simp only at hc'
      by_cases hx0 : addr = addr₁
      · rw [if_pos hx0] at hc'
        exact absurd hc' (by simp)
      · rw [if_neg hx0] at hc'
        rw [hc] at hc'
        simp only [Option.some.injEq, Prod.mk.injEq] at hc'
        exact ⟨hc'.1.symm, hc'.2.symm⟩
  | doInstantRefund cc signers addr₁ refundee redeemer rent_sponsor h =>
      unfold instantRefundOp at h
      dsimp only at h
      repeat' split at h
      all_goals try exact Except.noConfusion h
      simp only [Except.ok.injEq] at h
      subst h
      simp only at hc'
      by_cases hx0 : addr = addr₁
      · rw [if_pos hx0] at hc'
        exact absurd hc' (by simp)
      · rw [if_neg hx0] at hc'
        rw [hc] at hc'
        simp only [Option.some.injEq, Prod.mk.injEq] at hc'
        exact ⟨hc'.1.symm, hc'.2.symm⟩

/-- C2: for an existing (Active) record addressed by its own seed
derivation, with the supplied redeemer and rent sponsor equal to the
stored ones and the record holding at least `swap_amount` lamports,
`redeem` succeeds exactly when `digest secret` equals the stored
`secret_hash`; on success the full `swap_amount` is credited to the
stored redeemer and the record no longer exists, and on digest mismatch
it fails with `InvalidSecret`. -/
theorem claim_C2_redeem_iff_secret (c : Chain) (signers : List Pubkey)
    (addr : Addr) (a : SwapAccount) (lams : Nat) (secret : Bytes)
    (digest : Bytes → Bytes)
    (hrec : c.store addr = some (a, lams))
    (hseeds : addr = swapSeeds a.redeemer a.refundee a.secret_hash a.swap_amount a.timelock)
    (hbump : a.bump = canonicalBump addr)
    (hlams : a.swap_amount ≤ lams) :
    ((redeemOp c signers addr a.redeemer a.rent_sponsor secret digest).isOk ↔
        digest secret = a.secret_hash) ∧
    (digest secret = a.secret_hash →
      ∃ c', redeemOp c signers addr a.redeemer a.rent_sponsor secret digest = .ok c' ∧
        c'.store addr = none ∧
        (a.redeemer ≠ a.rent_sponsor →
          c'.balances a.redeemer = c.balances a.redeemer + a.swap_amount)) ∧
    (digest secret ≠ a.secret_hash →
      redeemOp c signers addr a.redeemer a.rent_sponsor secret digest =
        .error (.swap .InvalidSecret)) := by
  have hnl : ¬ lams < a.swap_amount := Nat.not_lt.mpr hlams
  have key : redeemOp c signers addr a.redeemer a.rent_sponsor secret digest
      = if digest secret ≠ a.secret_hash then
          Except.error (TxError.swap SwapError.InvalidSecret)
        else
          Except.ok { store := fun x => if x = addr then none else c.store x
                      balances := credit (credit c.balances a.redeemer a.swap_amount)
                        a.rent_sponsor (lams - a.swap_amount)
                      slot := c.slot } := by
    unfold redeemOp
    rw [hrec]
    dsimp only
    rw [if_neg (not_not_intro ⟨hseeds, hbump⟩), if_neg (not_not_intro rfl),
        if_neg (not_not_intro rfl)]
    by_cases hsec : digest secret = a.secret_hash
    · rw [if_neg (not_not_intro hsec), if_neg (not_not_intro hsec), if_neg hnl]
    · rw [if_pos hsec, if_pos hsec]
  refine ⟨?_, ?_, ?_⟩
  · rw [key]
    by_cases hsec : digest secret = a.secret_hash
    · rw [if_neg (not_not_intro hsec)]
      simpa [Except.isOk, Except.toBool] using hsec
    · rw [if_pos hsec]
      simpa [Except.isOk, Except.toBool] using hsec
  · intro hsec
    rw [key, if_neg (not_not_intro hsec)]
    refine ⟨_, rfl, by simp, fun hne => ?_⟩
    simp [credit, hne]
  · intro hsec
    rw [key, if_pos hsec]

/-- C3: for an existing record with matching supplied identities, `refund`
fails with `RefundBeforeExpiry` at every slot less than or equal to
`expiry_slot` (in particular exactly at the expiry slot), and the
invocation succeeds exactly when the slot read fresh from the clock at
that invocation is strictly greater than `expiry_slot`. -/
theorem claim_C3_refund_expiry_boundary (c : Chain) (signers : List Pubkey)
    (addr : Addr) (a : SwapAccount) (lams : Nat)
    (hrec : c.store addr = some (a, lams))
    (hseeds : addr = swapSeeds a.redeemer a.refundee a.secret_hash a.swap_amount a.timelock)
    (hbump : a.bump = canonicalBump addr)
    (hlams : a.swap_amount ≤ lams) :
    ∀ s : Nat,
      (s ≤ a.expiry_slot →
        refundOp { c with slot := s } signers addr a.refundee a.rent_sponsor
          = .error (.swap .RefundBeforeExpiry)) ∧
      ((refundOp { c with slot := s } signers addr a.refundee a.rent_sponsor).isOk
        ↔ a.expiry_slot < s) := by
  intro s
  have hnl : ¬ lams < a.swap_amount := Nat.not_lt.mpr hlams
  have key : refundOp { c with slot := s } signers addr a.refundee a.rent_sponsor
      = if ¬ s > a.expiry_slot then
          Except.error (TxError.swap SwapError.RefundBeforeExpiry)
        else
          Except.ok { store := fun x => if x = addr then none else c.store x
                      balances := credit (credit c.balances a.refundee a.swap_amount)
                        a.rent_sponsor (lams - a.swap_amount)
                      slot := s } := by
    unfold refundOp
    dsimp only
    rw [hrec]
    dsimp only
    rw [if_neg (not_not_intro ⟨hseeds, hbump⟩), if_neg (not_not_intro rfl),
        if_neg (not_not_intro rfl)]
    by_cases ht : s > a.expiry_slot
    · rw [if_neg (not_not_intro ht), if_neg (not_not_intro ht), if_neg hnl]
    · rw [if_pos ht, if_pos ht]
  refine ⟨fun hle => ?_, ?_⟩
  · rw [key, if_pos (Nat.not_lt.mpr hle)]
  · rw [key]
    by_cases ht : s > a.expiry_slot
    · rw [if_neg (not_not_intro ht)]
      simpa [Except.isOk, Except.toBool] using ht
    · rw [if_pos ht]
      simpa [Except.isOk, Except.toBool] using ht

/-- C4: with both signatures present, the derived address unoccupied and
balances sufficient, `initiate` aborts the whole creation (the `expect`
panic on `checked_add`, surfaced as the transaction's overflow abort)
exactly when `creation slot + timelock` leaves the u64 range; otherwise it
succeeds and the created record's `expiry_slot` is exactly
`creation slot + timelock`. -/
theorem claim_C4_initiate_expiry_overflow (c : Chain) (signers : List Pubkey)
    (funder rent_sponsor redeemer refundee : Pubkey) (secret_hash : Bytes)
    (swap_amount timelock rent : Nat)
    (hsig : funder ∈ signers ∧ rent_sponsor ∈ signers)
    (hfree : c.store (swapSeeds redeemer refundee secret_hash swap_amount timelock) = none)
    (hrent : rent ≤ c.balances rent_sponsor)
    (hfund : swap_amount ≤ debit c.balances rent_sponsor rent funder) :
    (U64MOD ≤ c.slot + timelock →
      initiateOp c signers funder rent_sponsor redeemer refundee secret_hash
        swap_amount timelock rent = .error .overflowPanic) ∧
    (c.slot + timelock < U64MOD →
      ∃ c' acct lams,
        initiateOp c signers funder rent_sponsor redeemer refundee secret_hash
          swap_amount timelock rent = .ok c' ∧
        c'.store (swapSeeds redeemer refundee secret_hash swap_amount timelock)
          = some (acct, lams) ∧
        acct.expiry_slot = c.slot + timelock) := by
  have h1 : ¬ ¬ (funder ∈ signers ∧ rent_sponsor ∈ signers) := not_not_intro hsig
  have h2 : ¬ (c.store (swapSeeds redeemer refundee secret_hash swap_amount timelock)).isSome
      = true := by
    rw [hfree]
    simp
  have h3 : ¬ c.balances rent_sponsor < rent := Nat.not_lt.mpr hrent
  have h4 : ¬ debit c.balances rent_sponsor rent funder < swap_amount := Nat.not_lt.mpr hfund
  constructor
  · intro hovf
    unfold initiateOp
    dsimp only
    rw [if_neg h1, if_neg h2, if_neg h3, if_neg h4, if_pos hovf]
  · intro hok
    have h5 : ¬ U64MOD ≤ c.slot + timelock := Nat.not_le.mpr hok
    unfold initiateOp
    dsimp only
    rw [if_neg h1, if_neg h2, if_neg h3, if_neg h4, if_neg h5]
    refine ⟨_,
      { expiry_slot := c.slot + timelock
        bump := canonicalBump (swapSeeds redeemer refundee secret_hash swap_amount timelock)
        redeemer := redeemer
        refundee := refundee
        secret_hash := secret_hash
        swap_amount := swap_amount
        rent_sponsor := rent_sponsor
        timelock := timelock },
      rent + swap_amount, rfl, by simp, rfl⟩

/-- C5: `redeem` consults no signature (its outcome is the same for every
signer set), a supplied redeemer different from the stored one fails with
`InvalidRedeemer`, and every successful redeem credits `swap_amount` to
the redeemer stored in the record — which the supplied account was forced
to equal — never to any other party. -/
theorem claim_C5_redeem_pays_stored_redeemer (c : Chain) (signers : List Pubkey)
    (addr : Addr) (redeemer rent_sponsor : Pubkey) (secret : Bytes)
    (digest : Bytes → Bytes) (a : SwapAccount) (lams : Nat)
    (hrec : c.store addr = some (a, lams))
    (hseeds : addr = swapSeeds a.redeemer a.refundee a.secret_hash a.swap_amount a.timelock)
    (hbump : a.bump = canonicalBump addr) :
    (∀ signers₁ signers₂,
      redeemOp c signers₁ addr redeemer rent_sponsor secret digest =
        redeemOp c signers₂ addr redeemer rent_sponsor secret digest) ∧
    (redeemer ≠ a.redeemer →
      redeemOp c signers addr redeemer rent_sponsor secret digest =
        .error (.swap .InvalidRedeemer)) ∧
    (∀ c', redeemOp c signers addr redeemer rent_sponsor secret digest = .ok c' →
      redeemer = a.redeemer ∧
      (a.redeemer ≠ a.rent_sponsor →
        c'.balances a.redeemer = c.balances a.redeemer + a.swap_amount)) := by
  refine ⟨fun _ _ => rfl, fun hne => ?_, fun c' h => ?_⟩
  · unfold redeemOp
    rw [hrec]
    dsimp only
    rw [if_neg (not_not_intro ⟨hseeds, hbump⟩), if_pos hne]
  · unfold redeemOp at h
    rw [hrec] at h
    dsimp only at h
    repeat' split at h
    all_goals try exact Except.noConfusion h
    rename_i hs1 hs2 hs3 hs4 hs5
    simp only [Except.ok.injEq] at h
    subst h
    refine ⟨not_not.mp hs2, fun hne => ?_⟩
    simp [credit, hne]

/-- C9: for an existing record with matching supplied identities,
`instant_refund` succeeds exactly when the stored redeemer is among the
transaction's signers, at every slot alike (no clock comparison occurs);
on success the escrow moves to the stored refundee, the record is deleted
and the residual deposit goes to the rent sponsor, and without the
redeemer's signature it fails with a missing-signature error. -/
theorem claim_C9_instant_refund_iff_consent (c : Chain) (signers : List Pubkey)
    (addr : Addr) (a : SwapAccount) (lams : Nat)
    (hrec : c.store addr = some (a, lams))
    (hseeds : addr = swapSeeds a.redeemer a.refundee a.secret_hash a.swap_amount a.timelock)
    (hbump : a.bump = canonicalBump addr)
    (hlams : a.swap_amount ≤ lams) :
    (∀ s : Nat,
      ((instantRefundOp { c with slot := s } signers addr a.refundee a.redeemer
          a.rent_sponsor).isOk ↔ a.redeemer ∈ signers)) ∧
    (a.redeemer ∈ signers →
      ∃ c', instantRefundOp c signers addr a.refundee a.redeemer a.rent_sponsor
          = .ok c' ∧
        c'.store addr = none ∧
        (a.refundee ≠ a.rent_sponsor →
          c'.balances a.refundee = c.balances a.refundee + a.swap_amount) ∧
        c.balances a.rent_sponsor + (lams - a.swap_amount)
          ≤ c'.balances a.rent_sponsor) ∧
    (a.redeemer ∉ signers →
      instantRefundOp c signers addr a.refundee a.redeemer a.rent_sponsor
        = .error .missingSignature) := by
  have hnl : ¬ lams < a.swap_amount := Nat.not_lt.mpr hlams
  have key : ∀ s : Nat,
      instantRefundOp { c with slot := s } signers addr a.refundee a.redeemer
          a.rent_sponsor
        = if a.redeemer ∉ signers then Except.error TxError.missingSignature
          else
            Except.ok { store := fun x => if x = addr then none else c.store x
                        balances := credit (credit c.balances a.refundee a.swap_amount)
                          a.rent_sponsor (lams - a.swap_amount)
                        slot := s } := by
    intro s
    unfold instantRefundOp
    dsimp only
    rw [hrec]
    dsimp only
    rw [if_neg (not_not_intro ⟨hseeds, hbump⟩), if_neg (not_not_intro rfl),
        if_neg (not_not_intro rfl)]
    by_cases hsg : a.redeemer ∉ signers
    · rw [if_pos hsg, if_pos hsg]
    · rw [if_neg hsg, if_neg hsg, if_neg (not_not_intro rfl), if_neg hnl]
  have keyc : instantRefundOp c signers addr a.refundee a.redeemer a.rent_sponsor
      = if a.redeemer ∉ signers then Except.error TxError.missingSignature
        else
          Except.ok { store := fun x => if x = addr then none else c.store x
                      balances := credit (credit c.balances a.refundee a.swap_amount)
                        a.rent_sponsor (lams - a.swap_amount)
                      slot := c.slot } := key c.slot
  refine ⟨fun s => ?_, fun hsg => ?_, fun hsg => ?_⟩
  · rw [key s]
    by_cases hsg : a.redeemer ∉ signers
    · rw [if_pos hsg]
      simpa [Except.isOk, Except.toBool] using hsg
    · rw [if_neg hsg]
      simpa [Except.isOk, Except.toBool] using not_not.mp hsg
  · rw [keyc, if_neg (not_not_intro hsg)]
    refine ⟨_, rfl, by simp, fun hne => by simp [credit, hne], ?_⟩
    have hr : credit (credit c.balances a.refundee a.swap_amount) a.rent_sponsor
        (lams - a.swap_amount) a.rent_sponsor
        = credit c.balances a.refundee a.swap_amount a.rent_sponsor
            + (lams - a.swap_amount) := by
      simp [credit]
    dsimp only
    rw [hr]
    exact Nat.add_le_add_right (le_credit _ _ _ _) _
  · rw [keyc, if_pos hsg]

/-- C10: `redeem` performs no clock or expiry comparison: with the correct
secret and matching stored identities it succeeds at every slot whatsoever
— in particular at slots strictly beyond `expiry_slot` — as long as the
record still exists. -/
theorem claim_C10_redeem_ignores_clock (c : Chain) (signers : List Pubkey)
    (addr : Addr) (a : SwapAccount) (lams : Nat) (secret : Bytes)
    (digest : Bytes → Bytes)
    (hrec : c.store addr = some (a, lams))
    (hseeds : addr = swapSeeds a.redeemer a.refundee a.secret_hash a.swap_amount a.timelock)
    (hbump : a.bump = canonicalBump addr)
    (hlams : a.swap_amount ≤ lams)
    (hsec : digest secret = a.secret_hash) :
    ∀ s : Nat,
      (redeemOp { c with slot := s } signers addr a.redeemer a.rent_sponsor
        secret digest).isOk = true := by
  intro s
  unfold redeemOp
  dsimp only
  rw [hrec]
  dsimp only
  rw [if_neg (not_not_intro ⟨hseeds, hbump⟩), if_neg (not_not_intro rfl),
      if_neg (not_not_intro rfl), if_neg (not_not_intro hsec),
      if_neg (Nat.not_lt.mpr hlams)]
  simp [Except.isOk, Except.toBool]

/-- After a closing instruction's double credit, the rent sponsor holds at
least its old balance plus the residual lamports of the closed account. -/
theorem rent_sponsor_gets_residual (b : Pubkey → Nat) (p rs : Pubkey)
    (amt res : Nat) : b rs + res ≤ credit (credit b p amt) rs res rs := by
  have hr : credit (credit b p amt) rs res rs = credit b p amt rs + res := by
    simp [credit]
  rw [hr]
  exact Nat.add_le_add_right (le_credit _ _ _ _) _

/-- C1: completion is mutually exclusive per record. When no record exists
at an address, each of `redeem`, `refund` and `instant_refund` fails with
the not-found error of the account loader, changing nothing; and whenever
one of the three succeeds, the record at that address is gone afterwards
(with the residual deposit credited to the stored rent sponsor), so every
later competing attempt observes no record and fails as above. -/
theorem claim_C1_exclusive_completion (digest : Bytes → Bytes) (c : Chain)
    (addr : Addr) :
    (c.store addr = none →
      (∀ signers redeemer rent_sponsor secret,
        redeemOp c signers addr redeemer rent_sponsor secret digest
          = .error .accountNotFound) ∧
      (∀ signers refundee rent_sponsor,
        refundOp c signers addr refundee rent_sponsor
          = .error .accountNotFound) ∧
      (∀ signers refundee redeemer rent_sponsor,
        instantRefundOp c signers addr refundee redeemer rent_sponsor
          = .error .accountNotFound)) ∧
    (∀ c' signers redeemer rent_sponsor secret,
      redeemOp c signers addr redeemer rent_sponsor secret digest = .ok c' →
      c'.store addr = none ∧
      ∀ a lams, c.store addr = some (a, lams) →
        c.balances a.rent_sponsor + (lams - a.swap_amount)
          ≤ c'.balances a.rent_sponsor) ∧
    (∀ c' signers refundee rent_sponsor,
      refundOp c signers addr refundee rent_sponsor = .ok c' →
      c'.store addr = none ∧
      ∀ a lams, c.store addr = some (a, lams) →
        c.balances a.rent_sponsor + (lams - a.swap_amount)
          ≤ c'.balances a.rent_sponsor) ∧
    (∀ c' signers refundee redeemer rent_sponsor,
      instantRefundOp c signers addr refundee redeemer rent_sponsor = .ok c' →
      c'.store addr = none ∧
      ∀ a lams, c.store addr = some (a, lams) →
        c.balances a.rent_sponsor + (lams - a.swap_amount)
          ≤ c'.balances a.rent_sponsor) := by
  refine ⟨fun hnone => ⟨fun signers redeemer rent_sponsor secret => ?_,
            fun signers refundee rent_sponsor => ?_,
            fun signers refundee redeemer rent_sponsor => ?_⟩,
          fun c' signers redeemer rent_sponsor secret h => ?_,
          fun c' signers refundee rent_sponsor h => ?_,
          fun c' signers refundee redeemer rent_sponsor h => ?_⟩
  · unfold redeemOp
    rw [hnone]
  · unfold refundOp
    rw [hnone]
  · unfold instantRefundOp
    rw [hnone]
  · unfold redeemOp at h
    repeat' split at h
    all_goals try exact Except.noConfusion h
    rename_i a lams heq hs1 hs2 hs3 hs4 hs5
    simp only [Except.ok.injEq] at h
    subst h
    refine ⟨by simp, fun a0 lams0 hsome => ?_⟩
    rw [heq] at hsome
    simp only [Option.some.injEq, Prod.mk.injEq] at hsome
    obtain ⟨ha0, hl0⟩ := hsome
    subst ha0
    subst hl0
    exact rent_sponsor_gets_residual _ _ _ _ _
  · unfold refundOp at h
    repeat' split at h
    all_goals try exact Except.noConfusion h
    rename_i a lams heq hs1 hs2 hs3 hs4 hs5
    simp only [Except.ok.injEq] at h
    subst h
    refine ⟨by simp, fun a0 lams0 hsome => ?_⟩
    rw [heq] at hsome
    simp only [Option.some.injEq, Prod.mk.injEq] at hsome
    obtain ⟨ha0, hl0⟩ := hsome
    subst ha0
    subst hl0
    exact rent_sponsor_gets_residual _ _ _ _ _
  · unfold instantRefundOp at h
    repeat' split at h
    all_goals try exact Except.noConfusion h
    rename_i a lams heq hs1 hs2 hs3 hs4 hs5 hs6
    simp only [Except.ok.injEq] at h
    subst h
    refine ⟨by simp, fun a0 lams0 hsome => ?_⟩
    rw [heq] at hsome
    simp only [Option.some.injEq, Prod.mk.injEq] at hsome
    obtain ⟨ha0, hl0⟩ := hsome
    subst ha0
    subst hl0
    exact rent_sponsor_gets_residual _ _ _ _ _

/-- C8: a failing invocation of any instruction leaves the ledger exactly
as it was — the transaction aborts with zero side effects — and in
particular a redeem whose supplied secret does not digest to the stored
`secret_hash` always fails, leaving the record's contents and lamports
untouched. -/
theorem claim_C8_failure_leaves_state (digest : Bytes → Bytes) (rent : Nat)
    (c : Chain) :
    (∀ signers funder rent_sponsor redeemer refundee secret_hash
        swap_amount timelock e,
      initiateOp c signers funder rent_sponsor redeemer refundee secret_hash
          swap_amount timelock rent = .error e →
      applyTx (initiateOp c signers funder rent_sponsor redeemer refundee
        secret_hash swap_amount timelock rent) c = c) ∧
    (∀ signers addr redeemer rent_sponsor secret e,
      redeemOp c signers addr redeemer rent_sponsor secret digest = .error e →
      applyTx (redeemOp c signers addr redeemer rent_sponsor secret digest) c
        = c) ∧
    (∀ signers addr refundee rent_sponsor e,
      refundOp c signers addr refundee rent_sponsor = .error e →
      applyTx (refundOp c signers addr refundee rent_sponsor) c = c) ∧
    (∀ signers addr refundee redeemer rent_sponsor e,
      instantRefundOp c signers addr refundee redeemer rent_sponsor
          = .error e →
      applyTx (instantRefundOp c signers addr refundee redeemer rent_sponsor) c
        = c) ∧
    (∀ signers addr redeemer rent_sponsor secret a lams,
      c.store addr = some (a, lams) → digest secret ≠ a.secret_hash →
      (∃ e, redeemOp c signers addr redeemer rent_sponsor secret digest
        = .error e) ∧
      (applyTx (redeemOp c signers addr redeemer rent_sponsor secret digest)
        c).store addr = some (a, lams)) := by
  refine ⟨fun signers funder rent_sponsor redeemer refundee secret_hash
            swap_amount timelock e h => by rw [h]; rfl,
          fun signers addr redeemer rent_sponsor secret e h => by rw [h]; rfl,
          fun signers addr refundee rent_sponsor e h => by rw [h]; rfl,
          fun signers addr refundee redeemer rent_sponsor e h => by rw [h]; rfl,
          fun signers addr redeemer rent_sponsor secret a lams hrec hsec => ?_⟩
  have herr : ∃ e, redeemOp c signers addr redeemer rent_sponsor secret digest
      = Except.error e := by
    unfold redeemOp
    rw [hrec]
    dsimp only
    repeat' split
    all_goals exact ⟨_, rfl⟩
  obtain ⟨e, he⟩ := herr
  refine ⟨⟨e, he⟩, ?_⟩
  rw [he]
  exact hrec

/-- C6: while a record exists its lamports are exactly the rent-exemption
deposit plus the escrowed `swap_amount` — the escrow equals `swap_amount`
at all times while Active — and no step of the system ever mutates an
existing record or its balance in place: the only balance change is the
closing transition, which removes the record (and with it exactly
`swap_amount` of escrow). -/
theorem claim_C6_escrow_balance (digest : Bytes → Bytes) (rent : Nat)
    (c : Chain) (h : Reachable digest rent c) :
    (∀ addr a lams, c.store addr = some (a, lams) →
      lams = rent + a.swap_amount) ∧
    (∀ c', Step digest rent c c' →
      ∀ addr a lams a' lams', c.store addr = some (a, lams) →
        c'.store addr = some (a', lams') → a' = a ∧ lams' = lams) :=
  ⟨fun addr a lams hx => (reachable_storeInv h addr a lams hx).1,
   fun c' hs addr a lams a' lams' hx hx' => step_preserves_record hs hx hx'⟩

/-- C7: the storage key is the deterministic derivation `swapSeeds` of
exactly the five identifying fields, and on every reachable chain each
record sits at the key derived from its own stored fields (with the
matching stored bump) — so the key the closing instructions re-derive
from the stored fields equals the key `initiate` derived from its
parameters. -/
theorem claim_C7_key_self_consistent (digest : Bytes → Bytes) (rent : Nat)
    (c : Chain) (h : Reachable digest rent c) :
    ∀ addr a lams, c.store addr = some (a, lams) →
      addr = swapSeeds a.redeemer a.refundee a.secret_hash a.swap_amount
        a.timelock ∧
      a.bump = canonicalBump addr :=
  fun addr a lams hx => (reachable_storeInv h addr a lams hx).2

/-- Running example: the stored redeemer. -/
def pkR : Pubkey := ⟨[1]⟩

/-- Running example: the stored refundee. -/
def pkF : Pubkey := ⟨[2]⟩

/-- Running example: the funder. -/
def pkU : Pubkey := ⟨[3]⟩

/-- Running example: the rent sponsor. -/
def pkS : Pubkey := ⟨[4]⟩

/-- Running example: a concrete stand-in for the abstract digest. -/
def digestW : Bytes → Bytes := fun b => 0 :: b

/-- Running example: the pre-image. -/
def secretW : Bytes := [7]

/-- Running example: the committed secret hash. -/
def hashW : Bytes := digestW secretW

/-- Running example: the derived address of the swap below. -/
def addrW : Addr := swapSeeds pkR pkF hashW 100 10

/-- Running example: a chain with no swap records, every balance 1000,
slot 5. -/
def chain0 : Chain :=
  { store := fun _ => none, balances := fun _ => 1000, slot := 5 }

/-- Running example: `chain0` after initiating a swap of 100 lamports with
timelock 10 and rent deposit 3. -/
def chainA : Chain :=
  applyTx (initiateOp chain0 [pkU, pkS] pkU pkS pkR pkF hashW 100 10 3) chain0

/-- Running example: the record stored at `addrW` on `chainA`. -/
def acctW : SwapAccount :=
  { expiry_slot := 15, bump := 0, redeemer := pkR, refundee := pkF,
    secret_hash := hashW, swap_amount := 100, rent_sponsor := pkS,
    timelock := 10 }

/-- Running example: `chainA` after a successful redeem. -/
def chainB : Chain :=
  applyTx (redeemOp chainA [] addrW pkR pkS secretW digestW) chainA

/-- The example chain with one active swap is reachable. -/
theorem reachA : Reachable digestW 3 chainA :=
  ⟨chain0, fun _ => rfl,
    Relation.ReflTransGen.single
      (Step.doInitiate chain0 chainA [pkU, pkS] pkU pkS pkR pkF hashW 100 10
        rfl)⟩

/-- Witness for C1: after the redeem on the example swap the record is
gone, and a competing refund observes no record and fails not-found. -/
theorem claim_C1_witness :
    chainB.store addrW = none ∧
    refundOp chainB [] addrW pkF pkS = .error .accountNotFound :=
  ⟨rfl, ((claim_C1_exclusive_completion digestW chainB addrW).1 rfl).2.1 [] pkF pkS⟩

/-- Witness for C2 on the example swap: with the correct pre-image the
redeem succeeds. -/
theorem claim_C2_witness :
    chainA.store addrW = some (acctW, 103) ∧
    addrW = swapSeeds acctW.redeemer acctW.refundee acctW.secret_hash
      acctW.swap_amount acctW.timelock ∧
    acctW.swap_amount ≤ 103 ∧
    (redeemOp chainA [] addrW acctW.redeemer acctW.rent_sponsor secretW
      digestW).isOk = true :=
  ⟨rfl, rfl, by decide,
    ((claim_C2_redeem_iff_secret chainA [] addrW acctW 103 secretW digestW
      rfl rfl rfl (by decide)).1).mpr rfl⟩

/-- Witness for C3 on the example swap: a refund exactly at the expiry
slot fails `RefundBeforeExpiry`. -/
theorem claim_C3_witness :
    chainA.store addrW = some (acctW, 103) ∧
    (15 : Nat) ≤ acctW.expiry_slot ∧
    refundOp { chainA with slot := 15 } [] addrW acctW.refundee
      acctW.rent_sponsor = .error (.swap .RefundBeforeExpiry) :=
  ⟨rfl, by decide,
    ((claim_C3_refund_expiry_boundary chainA [] addrW acctW 103
      rfl rfl rfl (by decide)) 15).1 (by decide)⟩

/-- Witness for C4: an initiate whose `slot + timelock` leaves the u64
range aborts with the overflow panic. -/
theorem claim_C4_witness :
    chain0.store (swapSeeds pkR pkF hashW 100 U64MOD) = none ∧
    U64MOD ≤ chain0.slot + U64MOD ∧
    initiateOp chain0 [pkU, pkS] pkU pkS pkR pkF hashW 100 U64MOD 3
      = .error .overflowPanic :=
  ⟨rfl, by decide,
    (claim_C4_initiate_expiry_overflow chain0 [pkU, pkS] pkU pkS pkR pkF hashW
      100 U64MOD 3 (by decide) rfl (by decide) (by decide)).1 (by decide)⟩

/-- Witness for C5 on the example swap: supplying the refundee in place of
the stored redeemer fails `InvalidRedeemer`. -/
theorem claim_C5_witness :
    chainA.store addrW = some (acctW, 103) ∧
    pkF ≠ acctW.redeemer ∧
    redeemOp chainA [] addrW pkF pkS secretW digestW
      = .error (.swap .InvalidRedeemer) :=
  ⟨rfl, by decide,
    (claim_C5_redeem_pays_stored_redeemer chainA [] addrW pkF pkS secretW
      digestW acctW 103 rfl rfl rfl).2.1 (by decide)⟩

/-- Witness for C6 on the reachable example chain: the record's lamports
are the 3-lamport deposit plus the escrowed 100. -/
theorem claim_C6_witness :
    Reachable digestW 3 chainA ∧ (103 : Nat) = 3 + acctW.swap_amount :=
  ⟨reachA,
    (claim_C6_escrow_balance digestW 3 chainA reachA).1 addrW acctW 103 rfl⟩

/-- Witness for C7 on the reachable example chain: the record sits at the
address derived from its own stored fields. -/
theorem claim_C7_witness :
    Reachable digestW 3 chainA ∧
    addrW = swapSeeds acctW.redeemer acctW.refundee acctW.secret_hash
      acctW.swap_amount acctW.timelock :=
  ⟨reachA,
    ((claim_C7_key_self_consistent digestW 3 chainA reachA) addrW acctW 103
      rfl).1⟩

/-- Witness for C8 on the example swap: a redeem with a wrong pre-image
leaves the record, its contents and its lamports exactly as they were. -/
theorem claim_C8_witness :
    chainA.store addrW = some (acctW, 103) ∧
    digestW [9] ≠ acctW.secret_hash ∧
    (applyTx (redeemOp chainA [] addrW pkR pkS [9] digestW) chainA).store addrW
      = some (acctW, 103) :=
  ⟨rfl, by decide,
    ((claim_C8_failure_leaves_state digestW 3 chainA).2.2.2.2 [] addrW pkR pkS
      [9] acctW 103 rfl (by decide)).2⟩

/-- Witness for C9 on the example swap: with the redeemer among the
signers, an instant refund long before expiry (slot 0) succeeds. -/
theorem claim_C9_witness :
    chainA.store addrW = some (acctW, 103) ∧
    acctW.redeemer ∈ [pkR] ∧
    (instantRefundOp { chainA with slot := 0 } [pkR] addrW acctW.refundee
      acctW.redeemer acctW.rent_sponsor).isOk = true :=
  ⟨rfl, by decide,
    ((claim_C9_instant_refund_iff_consent chainA [pkR] addrW acctW 103
      rfl rfl rfl (by decide)).1 0).mpr (by decide)⟩

/-- Witness for C10 on the example swap: a redeem with the correct secret
at slot 20, strictly past the expiry slot 15, still succeeds. -/
theorem claim_C10_witness :
    chainA.store addrW = some (acctW, 103) ∧
    acctW.expiry_slot < 20 ∧
    (redeemOp { chainA with slot := 20 } [] addrW acctW.redeemer
      acctW.rent_sponsor secretW digestW).isOk = true :=
  ⟨rfl, by decide,
    (claim_C10_redeem_ignores_clock chainA [] addrW acctW 103 secretW digestW
      rfl rfl rfl (by decide) rfl) 20⟩

end SolanaNativeSwaps
